import Mathlib

/-!
# Verification of the HR data-cleaning core (`hr_data_insights/cleaning.py`)

A shallow embedding of the cleaning module of the `hr_data_insights`
repository.  Python strings are modelled as lists of Unicode code points
(`PyStr := List Nat`); pandas timestamps as integer minutes since the epoch;
calendar dates as integer day numbers since 1970-01-01 together with a
`civilFromDays` conversion giving the year/month/day fields; missing values
(`NaN`/`NaT`/`pd.NA`) as `Option.none`; the raised `ValueError` of
`validate_required_columns` (the spec's `SchemaError`) as an `Except` error
value carrying the sorted list of missing column names that the exception
message enumerates.

Character classification (`str.isprintable`, whitespace stripping,
`str.lower`) is modelled on the Latin-1 fragment of the Python semantics:
code points 0–31, 127 and 128–159 are the non-printable controls, the ASCII
whitespace characters are the whitespace class, and lower-casing maps `A`–`Z`
to `a`–`z`.  The header strings the pipeline actually handles live entirely
inside this fragment.
-/

/-- A Python string, as its list of Unicode code points (each a `Nat`). -/
abbrev PyStr := List Nat

/-- Convert a Lean string literal to its code-point list, for concrete data. -/
def pyStr (s : String) : PyStr := s.data.map Char.toNat

/-- The whitespace class stripped by `str.strip()` (ASCII fragment:
space, tab, newline, vertical tab, form feed, carriage return). -/
def pyIsSpace (c : Nat) : Bool :=
  c == 32 || c == 9 || c == 10 || c == 11 || c == 12 || c == 13

/-- `str.isprintable()` on the Latin-1 fragment: everything except the
C0 controls (0–31), DEL (127) and the C1 controls (128–159); the space
character 32 is printable. -/
def pyIsPrintable (c : Nat) : Bool :=
  decide (32 ≤ c) && !(c == 127) && (decide (c < 128) || decide (159 < c))

/-- `str.lower()` on the ASCII fragment: map `A`–`Z` (65–90) to
`a`–`z` (97–122), leave everything else unchanged. -/
def pyToLower (c : Nat) : Nat :=
  if 65 ≤ c && c ≤ 90 then c + 32 else c

/-- `str.strip()`: drop leading and trailing whitespace. -/
def pyStrip (s : PyStr) : PyStr :=
  ((s.dropWhile pyIsSpace).reverse.dropWhile pyIsSpace).reverse

/-- The chained `.replace("/", "_").replace("-", "_").replace(" ", "_")` of
`canonicalise_column_names`: the three patterns are single characters, so the
string replacement is a per-character map sending `/` (47), `-` (45) and
space (32) to `_` (95). -/
def replSep (c : Nat) : Nat :=
  if c == 47 || c == 45 || c == 32 then 95 else c

/-- One header through `canonicalise_column_names`' loop body: strip
surrounding whitespace, replace `/`, `-`, space by `_`, remove
non-printable characters, lower-case. -/
def canonicaliseOne (s : PyStr) : PyStr :=
  (((pyStrip s).map replSep).filter pyIsPrintable).map pyToLower

/-- `canonicalise_column_names`: transform raw column labels into
snake_case equivalents, one output per input, in order. -/
def canonicalise_column_names (columns : List PyStr) : List PyStr :=
  columns.map canonicaliseOne

-- ### Required-column validation (`validate_required_columns`, lines 93–101)

/-- Lexicographic code-point comparison: Python's `<=` on strings, which
`sorted` uses. -/
def lexLe : PyStr → PyStr → Bool
  | [], _ => true
  | _ :: _, [] => false
  | a :: as, b :: bs => if a < b then true else if b < a then false else lexLe as bs

/-- Insert into a `lexLe`-sorted list (model of Python's stable `sorted`). -/
def insortStr (s : PyStr) : List PyStr → List PyStr
  | [] => [s]
  | t :: ts => if lexLe s t then s :: t :: ts else t :: insortStr s ts

/-- `sorted(...)` on a list of strings. -/
def sortStrs : List PyStr → List PyStr
  | [] => []
  | s :: ss => insortStr s (sortStrs ss)

/-- The error raised when required columns are missing — the spec's
`SchemaError` (the code spells it as a `ValueError`).  The `missing` field
is the sorted list of names that the exception message
`"Dataset is missing required columns: " + ", ".join(sorted(missing))`
enumerates. -/
structure SchemaError where
  missing : List PyStr
deriving DecidableEq

/-- `validate_required_columns`: collect the required columns absent from
`columns` (in `required` order) and fail with a `SchemaError` listing all of
them (sorted, as in the message) when there are any. -/
def validate_required_columns (columns required : List PyStr) :
    Except SchemaError Unit :=
  let missing := required.filter (fun c => !(columns.contains c))
  if missing.isEmpty then .ok () else .error ⟨sortStrs missing⟩

-- ### Calendar arithmetic and derived fields (lines 104–149)

/-- Recover the proleptic-Gregorian `(year, month, day)` of a day number
(Howard Hinnant's `civil_from_days`); this is what `.dt.year`,
`.dt.month`, `.dt.day` read off a pandas timestamp. -/
def civilFromDays (z0 : Int) : Int × Int × Int :=
  let z := z0 + 719468
  let era := Int.fdiv z 146097
  let doe := z - era * 146097
  let yoe := Int.fdiv (doe - Int.fdiv doe 1460 + Int.fdiv doe 36524 - Int.fdiv doe 146096) 365
  let y := yoe + era * 400
  let doy := doe - (365 * yoe + Int.fdiv yoe 4 - Int.fdiv yoe 100)
  let mp := Int.fdiv (5 * doy + 2) 153
  let d := doy - Int.fdiv (153 * mp + 2) 5 + 1
  let m := mp + (if mp < 10 then 3 else -9)
  (y + (if m ≤ 2 then 1 else 0), m, d)

/-- `calculate_age` (lines 104–125), per record: `NaT` birthdate gives `NaN`;
otherwise `years = as_of.year - birthdate.year`, minus one when the
anniversary has not yet occurred (`has_had_birthday` is
`as_of.month > birth.month or (as_of.month == birth.month and
as_of.day >= birth.day)`).  `as_of` arrives already normalised to a day. -/
def calculate_age (birthdate : Option Int) (as_of : Int) : Option Int :=
  match birthdate with
  | none => none
  | some b =>
    let by_ := (civilFromDays b).1
    let bm := (civilFromDays b).2.1
    let bd := (civilFromDays b).2.2
    let ay := (civilFromDays as_of).1
    let am := (civilFromDays as_of).2.1
    let ad := (civilFromDays as_of).2.2
    let years := ay - by_
    let has_had_birthday := bm < am ∨ (am = bm ∧ bd ≤ ad)
    some (years - (if has_had_birthday then 0 else 1))

/-- `numpy`'s round-half-to-even of a rational to an integer (`np.round`
with zero decimals, as used inside `.round(1)` after scaling by ten). -/
def roundHalfEven (q : ℚ) : ℤ :=
  if q - ⌊q⌋ < 1 / 2 then ⌊q⌋
  else if 1 / 2 < q - ⌊q⌋ then ⌊q⌋ + 1
  else if ⌊q⌋ % 2 = 0 then ⌊q⌋ else ⌊q⌋ + 1

/-- `Series.round(1)`: scale by ten, round half to even, scale back. -/
def round1 (q : ℚ) : ℚ := (roundHalfEven (q * 10) : ℚ) / 10

/-- `calculate_tenure_years` (lines 128–149), per record: the end date
is `termdate` when present else `as_of` (`term.fillna(as_of)`); elapsed
days `(end_dates - hire).dt.days` are `NaN` when `hire` is `NaT`; tenure
is days over `365.25` rounded to one decimal, overwritten with `NaN`
where the elapsed days are negative. -/
def calculate_tenure_years (hire_date termdate : Option Int) (as_of : Int) :
    Option ℚ :=
  match hire_date with
  | none => none
  | some h =>
    let end_dates := termdate.getD as_of
    let tenure_days := end_dates - h
    if tenure_days < 0 then none
    else some (round1 ((tenure_days : ℚ) / (1461 / 4)))

-- ### Date standardisation (`_standardise_dates`, lines 152–163)

/-- A raw cell of a date-candidate column, abstracted at the point where
`pd.to_datetime(..., errors="coerce", utc=True)` classifies it: a value with
no recognisable date (`invalid`, coerced to `NaT`), a timezone-naive
timestamp (wall-clock minutes since the epoch, localised as UTC by
`utc=True`), or a timezone-aware timestamp (wall-clock minutes plus its
UTC-offset in minutes). -/
inductive RawCell where
  | invalid : RawCell
  | naive (minutes : Int) : RawCell
  | aware (minutes offset : Int) : RawCell
deriving DecidableEq

/-- One cell through lines 156–162: coerce to a UTC instant
(`utc=True`: a naive value is taken as UTC, an aware one has its offset
subtracted), drop the timezone (`tz_convert(None)`), floor to the day
(`floor("D")`).  The result is a timezone-naive calendar day. -/
def parse_cell : RawCell → Option Int
  | .invalid => none
  | .naive m => some (Int.fdiv m 1440)
  | .aware m off => some (Int.fdiv (m - off) 1440)

/-- A cell of the working frame: still raw, or already a parsed date. -/
inductive DCell where
  | raw (c : RawCell) : DCell
  | date (d : Option Int) : DCell
deriving DecidableEq

/-- `pd.to_datetime` on a cell of the working frame; an already-parsed
date column passes through unchanged. -/
def parse_dcell : DCell → Option Int
  | .raw c => parse_cell c
  | .date d => d

/-- A pandas frame viewed column-wise: labels with their cell lists. -/
abbrev DFrame := List (PyStr × List DCell)

/-- `df.columns`. -/
def dfKeys (df : DFrame) : List PyStr := df.map Prod.fst

/-- `df[col]`: the first column with that label, if any. -/
def dfLookup (df : DFrame) (col : PyStr) : Option (List DCell) :=
  (df.find? (fun p => p.1 == col)).map Prod.snd

/-- `df[column] = parsed.dt.floor("D")`: overwrite the labelled column with
its parsed dates. -/
def setColParsed (df : DFrame) (col : PyStr) : DFrame :=
  df.map (fun p =>
    if p.1 = col then (p.1, p.2.map (fun c => DCell.date (parse_dcell c))) else p)

/-- `_standardise_dates`: for each configured column, skip it when absent
(`continue`), otherwise parse it in place. -/
def _standardise_dates (df : DFrame) (columns : List PyStr) : DFrame :=
  columns.foldl
    (fun acc col => if (dfKeys acc).contains col then setColParsed acc col else acc)
    df

-- ### Text normalisation (`_standardise_text`, lines 198–202)

/-- The scan of the `.str.replace(r"\s+", " ", regex=True)` pass: emit one
space at the first character of each whitespace run (`inRun` records
whether the previous character was whitespace), drop the rest of the run,
copy everything else. -/
def collapseWsGo (inRun : Bool) : PyStr → PyStr
  | [] => []
  | c :: rest =>
    if pyIsSpace c then
      if inRun then collapseWsGo true rest
      else 32 :: collapseWsGo true rest
    else c :: collapseWsGo false rest

/-- The `.str.replace(r"\s+", " ", regex=True)` pass: each maximal run of
whitespace becomes one space. -/
def collapseWs (s : PyStr) : PyStr := collapseWsGo false s

/-- `_standardise_text`: trim surrounding whitespace, then collapse the
internal whitespace runs. -/
def _standardise_text (s : PyStr) : PyStr := collapseWs (pyStrip s)

-- ### The orchestrator (`clean_dataset`, lines 15–73)

/-- The slice of `DatasetConfig` (from `config.py`) the cleaning core
reads: the enumerated required and date-candidate column names.  The
dataclass is frozen; the core never writes to it. -/
structure DatasetConfig where
  date_columns : List PyStr :=
    [pyStr "birthdate", pyStr "hire_date", pyStr "termdate"]
  required_columns : List PyStr :=
    [pyStr "id", pyStr "birthdate", pyStr "hire_date", pyStr "gender",
      pyStr "department"]
deriving DecidableEq

/-- `DEFAULT_CONFIG = DatasetConfig()`. -/
def DEFAULT_CONFIG : DatasetConfig := {}

/-- One raw record over the fixed post-canonicalisation schema (the
columns the claims concern; the text fields carried by the model are the
two required categorical ones). -/
structure RawRow where
  id : PyStr
  birthdate : RawCell
  hire_date : RawCell
  termdate : RawCell
  gender : PyStr
  department : PyStr
deriving DecidableEq

/-- A cleaned record: the identifier renamed to `employee_id`
(`_rename_columns`, lines 191–195), dates parsed, text normalised, and the
derived `age` and `tenure_years` fields. -/
structure CleanRow where
  employee_id : PyStr
  birthdate : Option Int
  hire_date : Option Int
  termdate : Option Int
  gender : PyStr
  department : PyStr
  age : Option Int
  tenure_years : Option ℚ
deriving DecidableEq

/-- The raw input table: its header list plus its records. -/
structure RawFrame where
  columns : List PyStr
  rows : List RawRow
deriving DecidableEq

/-- `drop_duplicates(subset="id")` (line 47): keep a record iff its
identifier has not been seen earlier; first occurrence wins. -/
def dedupById (seen : List PyStr) : List RawRow → List RawRow
  | [] => []
  | r :: rs =>
    if seen.contains r.id then dedupById seen rs
    else r :: dedupById (r.id :: seen) rs

/-- Lines 48–55 applied to one record of the fixed schema: rename `id` to
`employee_id`, parse the three configured date columns
(`_standardise_dates` specialised to the fixed schema via `parse_cell`),
and normalise the categorical text columns; the two title-case columns
(`first_name`, `last_name`) are outside the modelled schema. -/
def parseRow (r : RawRow) : CleanRow :=
  { employee_id := r.id
    birthdate := parse_cell r.birthdate
    hire_date := parse_cell r.hire_date
    termdate := parse_cell r.termdate
    gender := _standardise_text r.gender
    department := _standardise_text r.department
    age := none
    tenure_years := none }

/-- Lines 57–60: `working["age"] = calculate_age(working["birthdate"])`. -/
def ageStage (as_of : Int) (rows : List CleanRow) : List CleanRow :=
  rows.map (fun r => { r with age := calculate_age r.birthdate as_of })

/-- The row predicate of line 62:
`working["age"].isna() | (working["age"] >= minimum_age)`. -/
def ageFilterKeep (minimum_age : Int) (r : CleanRow) : Bool :=
  match r.age with
  | none => true
  | some a => decide (minimum_age ≤ a)

/-- Line 62: drop the records whose age is present and below the minimum
(line 63's `astype("Int64")` only re-types the already-integral column). -/
def filterByAge (minimum_age : Int) (rows : List CleanRow) : List CleanRow :=
  rows.filter (ageFilterKeep minimum_age)

/-- Lines 65–69: `working["tenure_years"] = calculate_tenure_years(...)`. -/
def tenureStage (as_of : Int) (rows : List CleanRow) : List CleanRow :=
  rows.map (fun r =>
    { r with tenure_years := calculate_tenure_years r.hire_date r.termdate as_of })

/-- The mask of line 186: `termdate.notna() & (termdate < hire_date)`;
a `NaT` on either side of `<` compares false. -/
def enforceMask (r : CleanRow) : Bool :=
  match r.termdate, r.hire_date with
  | some t, some h => decide (t < h)
  | _, _ => false

/-- Line 187 applied to one record: null the termination date where the
mask holds; nothing else changes. -/
def enforceRow (r : CleanRow) : CleanRow :=
  if enforceMask r then { r with termdate := none } else r

/-- `_enforce_date_relationships` (lines 181–188). -/
def _enforce_date_relationships (rows : List CleanRow) : List CleanRow :=
  rows.map enforceRow

/-- Lines 47–71 on the record list (everything after validation). -/
def transform_rows (rows : List RawRow) (as_of : Int) (minimum_age : Int) :
    List CleanRow :=
  _enforce_date_relationships
    (tenureStage as_of
      (filterByAge minimum_age
        (ageStage as_of ((dedupById [] rows).map parseRow))))

/-- `clean_dataset` (lines 15–73): canonicalise the header, validate the
required columns (fail fast), then run the record transformation.  `as_of`
is the caller-supplied reference day (its `None`-defaulting to today is
outside the model); `minimum_age` defaults to 18 as in the signature. -/
def clean_dataset (df : RawFrame) (config : DatasetConfig) (as_of : Int)
    (minimum_age : Int := 18) : Except SchemaError (List CleanRow) :=
  match validate_required_columns (canonicalise_column_names df.columns)
      config.required_columns with
  | .error e => .error e
  | .ok _ => .ok (transform_rows df.rows as_of minimum_age)

/-- `clean_dataset` with the caller's objects threaded through explicitly:
line 43 (`working = df.copy()`) deep-copies the input, and every following
statement of the function reads and writes only `working`; the frozen
`config` is only ever read.  The first two components are the caller's
frame and configuration as they stand after the call. -/
def clean_dataset_mut (df : RawFrame) (config : DatasetConfig) (as_of : Int)
    (minimum_age : Int := 18) :
    RawFrame × DatasetConfig × Except SchemaError (List CleanRow) :=
  let working := df
  match validate_required_columns (canonicalise_column_names working.columns)
      config.required_columns with
  | .error e => (df, config, .error e)
  | .ok _ => (df, config, .ok (transform_rows working.rows as_of minimum_age))

-- ### Concrete data for the spec's scenarios

/-- 2024-01-01 as a day number (the tests' reference date). -/
def asOfDay : Int := 19723

/-- The sample header, already canonical. -/
def sampleColumns : List PyStr :=
  [pyStr "id", pyStr "birthdate", pyStr "hire_date", pyStr "termdate",
    pyStr "gender", pyStr "department"]

/-- Employee 001 of the test fixture: born 1990-01-15, hired 2015-03-01,
terminated `2019-05-02 00:00:00 UTC`. -/
def sampleRow1 : RawRow :=
  { id := pyStr "001"
    birthdate := .naive (7319 * 1440)
    hire_date := .naive (16495 * 1440)
    termdate := .aware (18018 * 1440) 0
    gender := pyStr " female"
    department := pyStr "Sales" }

/-- Employee 002: born 1992-05-01, hired 2016-04-01, still employed. -/
def sampleRow2 : RawRow :=
  { id := pyStr "002"
    birthdate := .naive (8156 * 1440)
    hire_date := .naive (16892 * 1440)
    termdate := .invalid
    gender := pyStr "MALE"
    department := pyStr "Engineering" }

/-- The test fixture: employee 002 appears twice. -/
def sampleFrame : RawFrame :=
  { columns := sampleColumns, rows := [sampleRow1, sampleRow2, sampleRow2] }

/-- A record whose termination date 2019-05-02 precedes its hire date
2020-01-01 (the spec's Scenario 5). -/
def chronoRow : RawRow :=
  { id := pyStr "003"
    birthdate := .naive (7319 * 1440)
    hire_date := .naive (18262 * 1440)
    termdate := .naive (18018 * 1440)
    gender := pyStr "female"
    department := pyStr "Sales" }

/-- A one-record frame exhibiting the chronology violation. -/
def chronoFrame : RawFrame :=
  { columns := sampleColumns, rows := [chronoRow] }

/-- The cleaned shape of `chronoRow` just before chronology enforcement. -/
def chronoClean : CleanRow :=
  { employee_id := pyStr "003"
    birthdate := some 7319
    hire_date := some 18262
    termdate := some 18018
    gender := pyStr "female"
    department := pyStr "Sales"
    age := some 33
    tenure_years := none }

/-- A header set lacking the required `department` column. -/
def noDeptFrame : RawFrame :=
  { columns := [pyStr "id", pyStr "birthdate", pyStr "hire_date", pyStr "gender"]
    rows := [] }

-- ### Character-level facts used for idempotence

lemma pyToLower_eq (c : Nat) :
    pyToLower c = if 65 ≤ c ∧ c ≤ 90 then c + 32 else c := by
  simp [pyToLower]

lemma replSep_eq (c : Nat) :
    replSep c = if c = 47 ∨ c = 45 ∨ c = 32 then 95 else c := by
  simp only [replSep, Bool.or_eq_true, beq_iff_eq]
  split_ifs <;> tauto

lemma pyIsSpace_false_iff (c : Nat) :
    pyIsSpace c = false ↔
      c ≠ 32 ∧ c ≠ 9 ∧ c ≠ 10 ∧ c ≠ 11 ∧ c ≠ 12 ∧ c ≠ 13 := by
  simp [pyIsSpace]
  tauto

lemma pyIsPrintable_true_iff (c : Nat) :
    pyIsPrintable c = true ↔ 32 ≤ c ∧ c ≠ 127 ∧ (c < 128 ∨ 159 < c) := by
  simp [pyIsPrintable]
  tauto

/-- Every character of a canonicalised header is fixed by all four passes. -/
lemma canonicaliseOne_char_closed {s : PyStr} {c : Nat}
    (hc : c ∈ canonicaliseOne s) :
    pyIsSpace c = false ∧ replSep c = c ∧ pyIsPrintable c = true ∧
      pyToLower c = c := by
  simp only [canonicaliseOne, List.mem_map, List.mem_filter] at hc
  obtain ⟨d, ⟨hdm, hdp⟩, rfl⟩ := hc
  obtain ⟨e, -, rfl⟩ := hdm
  rw [pyIsPrintable_true_iff] at hdp
  have hd3 : replSep e ≠ 32 ∧ replSep e ≠ 45 ∧ replSep e ≠ 47 := by
    rw [replSep_eq]; split_ifs <;> omega
  obtain ⟨h1, h2, h3⟩ := hdp
  rw [pyToLower_eq]
  split_ifs with hAZ
  · refine ⟨?_, ?_, ?_, ?_⟩
    · rw [pyIsSpace_false_iff]; omega
    · rw [replSep_eq, if_neg (by omega)]
    · rw [pyIsPrintable_true_iff]; omega
    · rw [pyToLower_eq, if_neg (by omega)]
  · refine ⟨?_, ?_, ?_, ?_⟩
    · rw [pyIsSpace_false_iff]; omega
    · rw [replSep_eq, if_neg (by omega)]
    · rw [pyIsPrintable_true_iff]; exact ⟨h1, h2, h3⟩
    · rw [pyToLower_eq, if_neg hAZ]

lemma map_eq_self_of_all {f : Nat → Nat} {l : PyStr}
    (h : ∀ c ∈ l, f c = c) : l.map f = l := by
  induction l with
  | nil => rfl
  | cons a t ih =>
    simp only [List.map_cons, h a (List.mem_cons_self a t),
      ih (fun c hc => h c (List.mem_cons_of_mem a hc))]

lemma dropWhile_eq_self_of_all {p : Nat → Bool} {l : PyStr}
    (h : ∀ c ∈ l, p c = false) : l.dropWhile p = l := by
  cases l with
  | nil => rfl
  | cons a t =>
    rw [List.dropWhile_cons, if_neg]
    simp [h a (List.mem_cons_self a t)]

lemma pyStrip_eq_self_of_all {l : PyStr}
    (h : ∀ c ∈ l, pyIsSpace c = false) : pyStrip l = l := by
  unfold pyStrip
  rw [dropWhile_eq_self_of_all h]
  rw [dropWhile_eq_self_of_all (by intro c hc; exact h c (List.mem_reverse.mp hc))]
  exact List.reverse_reverse l

/-- `canonicaliseOne` is idempotent. -/
lemma canonicaliseOne_idem (s : PyStr) :
    canonicaliseOne (canonicaliseOne s) = canonicaliseOne s := by
  have hchars := fun c hc => canonicaliseOne_char_closed (s := s) (c := c) hc
  conv_lhs => rw [canonicaliseOne]
  rw [pyStrip_eq_self_of_all (fun c hc => (hchars c hc).1)]
  rw [map_eq_self_of_all (fun c hc => (hchars c hc).2.1)]
  rw [List.filter_eq_self.mpr (fun c hc => (hchars c hc).2.2.1)]
  rw [map_eq_self_of_all (fun c hc => (hchars c hc).2.2.2)]

lemma mem_insortStr {a s : PyStr} {l : List PyStr} :
    a ∈ insortStr s l ↔ a = s ∨ a ∈ l := by
  induction l with
  | nil => simp [insortStr]
  | cons t ts ih =>
    simp only [insortStr]
    split_ifs
    · simp
    · simp only [List.mem_cons, ih]
      tauto

lemma mem_sortStrs {a : PyStr} {l : List PyStr} : a ∈ sortStrs l ↔ a ∈ l := by
  induction l with
  | nil => simp [sortStrs]
  | cons s ss ih =>
    simp only [sortStrs, mem_insortStr, ih, List.mem_cons]

lemma validate_required_columns_ok_iff {columns required : List PyStr} :
    validate_required_columns columns required = .ok () ↔
      ∀ c ∈ required, c ∈ columns := by
  simp only [validate_required_columns]
  split_ifs with h <;>
    simp only [List.isEmpty_iff, List.filter_eq_nil_iff] at h
  · constructor
    · intro _ c hc
      simpa using h c hc
    · intro _; rfl
  · constructor
    · intro hcontra
      exact absurd hcontra (by simp)
    · intro hall
      exfalso
      push_neg at h
      obtain ⟨c, hc, hb⟩ := h
      have := hall c hc
      simp at hb
      exact hb this

lemma roundHalfEven_nonneg {q : ℚ} (hq : 0 ≤ q) : 0 ≤ roundHalfEven q := by
  have hf : (0 : ℤ) ≤ ⌊q⌋ := Int.floor_nonneg.mpr hq
  unfold roundHalfEven
  split_ifs <;> omega

lemma round1_nonneg {q : ℚ} (hq : 0 ≤ q) : 0 ≤ round1 q := by
  unfold round1
  have := roundHalfEven_nonneg (q := q * 10) (by positivity)
  positivity

lemma dfKeys_setColParsed (df : DFrame) (col : PyStr) :
    dfKeys (setColParsed df col) = dfKeys df := by
  unfold dfKeys setColParsed
  rw [List.map_map]
  apply List.map_congr_left
  intro p _
  by_cases h : p.1 = col <;> simp [h]

lemma dfKeys_standardise_dates (df : DFrame) (columns : List PyStr) :
    dfKeys (_standardise_dates df columns) = dfKeys df := by
  induction columns generalizing df with
  | nil => rfl
  | cons c rest ih =>
    unfold _standardise_dates
    rw [List.foldl_cons]
    split_ifs with h
    · rw [show List.foldl _ (setColParsed df c) rest =
          _standardise_dates (setColParsed df c) rest from rfl, ih,
        dfKeys_setColParsed]
    · exact ih df

lemma dfLookup_setColParsed_self (df : DFrame) (col : PyStr) :
    dfLookup (setColParsed df col) col =
      (dfLookup df col).map
        (fun cells => cells.map (fun c => DCell.date (parse_dcell c))) := by
  unfold dfLookup setColParsed
  rw [List.find?_map]
  have hpred :
      ((fun p : PyStr × List DCell => p.1 == col) ∘
        (fun p : PyStr × List DCell =>
          if p.1 = col then (p.1, p.2.map (fun c => DCell.date (parse_dcell c)))
          else p)) = fun p : PyStr × List DCell => p.1 == col := by
    funext p
    by_cases h : p.1 = col <;> simp [h]
  rw [hpred]
  cases hfind : List.find? (fun p : PyStr × List DCell => p.1 == col) df with
  | none => rfl
  | some p =>
    have hp := List.find?_some hfind
    simp only [beq_iff_eq] at hp
    simp [Option.map, hp]

lemma dfLookup_setColParsed_other (df : DFrame) (col other : PyStr)
    (h : other ≠ col) :
    dfLookup (setColParsed df other) col = dfLookup df col := by
  unfold dfLookup setColParsed
  rw [List.find?_map]
  have hpred :
      ((fun p : PyStr × List DCell => p.1 == col) ∘
        (fun p : PyStr × List DCell =>
          if p.1 = other then (p.1, p.2.map (fun c => DCell.date (parse_dcell c)))
          else p)) = fun p : PyStr × List DCell => p.1 == col := by
    funext p
    by_cases hp : p.1 = other <;> simp [hp]
  rw [hpred]
  cases hfind : List.find? (fun p : PyStr × List DCell => p.1 == col) df with
  | none => rfl
  | some p =>
    have hp := List.find?_some hfind
    simp only [beq_iff_eq] at hp
    have : p.1 ≠ other := by rw [hp]; exact fun hco => h hco.symm
    simp [Option.map, this]

lemma dfLookup_standardise_dates_not_mem (df : DFrame) (columns : List PyStr)
    (col : PyStr) (h : col ∉ columns) :
    dfLookup (_standardise_dates df columns) col = dfLookup df col := by
  induction columns generalizing df with
  | nil => rfl
  | cons c rest ih =>
    have hc : c ≠ col := fun hcc => h (hcc ▸ List.mem_cons_self c rest)
    have hrest : col ∉ rest := fun hr => h (List.mem_cons_of_mem c hr)
    unfold _standardise_dates
    rw [List.foldl_cons]
    split_ifs with hin
    · rw [show List.foldl _ (setColParsed df c) rest =
          _standardise_dates (setColParsed df c) rest from rfl,
        ih _ hrest, dfLookup_setColParsed_other _ _ _ hc]
    · exact ih df hrest

-- ### Facts about deduplication and the stage maps

lemma mem_dedupById {r : RawRow} :
    ∀ {rows : List RawRow} {seen : List PyStr},
      r ∈ dedupById seen rows ↔
        r.id ∉ seen ∧ rows.find? (fun x => x.id == r.id) = some r := by
  intro rows
  induction rows with
  | nil => intro seen; simp [dedupById]
  | cons x rs ih =>
    intro seen
    unfold dedupById
    by_cases hseen : x.id ∈ seen
    · rw [if_pos (by simpa using hseen)]
      rw [ih]
      rw [List.find?_cons]
      by_cases hid : x.id = r.id
      · have : (x.id == r.id) = true := by simpa using hid
        rw [this]
        constructor
        · rintro ⟨hnot, hfind⟩
          have := List.find?_some hfind
          exact absurd (hid ▸ hseen) hnot
        · rintro ⟨hnot, hx⟩
          have : x = r := by simpa using hx
          exact absurd (hid ▸ hseen) hnot
      · have : (x.id == r.id) = false := by simpa using hid
        rw [this]
    · rw [if_neg (by simpa using hseen)]
      rw [List.mem_cons, ih, List.find?_cons]
      by_cases hid : x.id = r.id
      · have hbeq : (x.id == r.id) = true := by simpa using hid
        rw [hbeq]
        constructor
        · rintro (rfl | ⟨hnot, hfind⟩)
          · exact ⟨hseen, rfl⟩
          · rw [hid] at hnot
            exact absurd (List.mem_cons_self r.id seen) hnot
        · rintro ⟨-, hx⟩
          exact Or.inl (by simpa using hx.symm)
      · have hbeq : (x.id == r.id) = false := by simpa using hid
        rw [hbeq]
        constructor
        · rintro (rfl | ⟨hnot, hfind⟩)
          · exact absurd rfl hid
          · exact ⟨fun hmem => hnot (List.mem_cons_of_mem _ hmem), hfind⟩
        · rintro ⟨hnot, hfind⟩
          refine Or.inr ⟨?_, hfind⟩
          intro hmem
          rcases List.mem_cons.mp hmem with h | h
          · exact hid h.symm
          · exact hnot h

lemma dedupById_ids_nodup :
    ∀ (rows : List RawRow) (seen : List PyStr),
      ((dedupById seen rows).map (fun r => r.id)).Nodup ∧
        ∀ i ∈ (dedupById seen rows).map (fun r => r.id), i ∉ seen := by
  intro rows
  induction rows with
  | nil => intro seen; simp [dedupById]
  | cons x rs ih =>
    intro seen
    unfold dedupById
    by_cases hseen : x.id ∈ seen
    · rw [if_pos (by simpa using hseen)]
      exact ih seen
    · rw [if_neg (by simpa using hseen)]
      obtain ⟨ihn, ihs⟩ := ih (x.id :: seen)
      refine ⟨?_, ?_⟩
      · rw [List.map_cons, List.nodup_cons]
        exact ⟨fun hmem => (ihs x.id hmem) (List.mem_cons_self _ _), ihn⟩
      · intro i hi
        rw [List.map_cons, List.mem_cons] at hi
        rcases hi with rfl | hi
        · exact hseen
        · exact fun hmem => (ihs i hi) (List.mem_cons_of_mem _ hmem)

lemma employee_id_parseRow (r : RawRow) : (parseRow r).employee_id = r.id := rfl

lemma ageStage_ids (as_of : Int) (rows : List CleanRow) :
    (ageStage as_of rows).map (fun r => r.employee_id) =
      rows.map (fun r => r.employee_id) := by
  unfold ageStage
  rw [List.map_map]
  rfl

lemma tenureStage_ids (as_of : Int) (rows : List CleanRow) :
    (tenureStage as_of rows).map (fun r => r.employee_id) =
      rows.map (fun r => r.employee_id) := by
  unfold tenureStage
  rw [List.map_map]
  rfl

lemma enforceRow_employee_id (r : CleanRow) :
    (enforceRow r).employee_id = r.employee_id := by
  unfold enforceRow
  split_ifs <;> rfl

lemma enforce_ids (rows : List CleanRow) :
    (_enforce_date_relationships rows).map (fun r => r.employee_id) =
      rows.map (fun r => r.employee_id) := by
  unfold _enforce_date_relationships
  rw [List.map_map]
  exact List.map_congr_left (fun r _ => enforceRow_employee_id r)

/-- The cleaned identifiers form a sublist of the deduplicated raw ones. -/
lemma transform_rows_ids_sublist (rows : List RawRow) (as_of : Int)
    (minimum_age : Int) :
    ((transform_rows rows as_of minimum_age).map (fun r => r.employee_id)).Sublist
      ((dedupById [] rows).map (fun r => r.id)) := by
  unfold transform_rows filterByAge
  rw [enforce_ids, tenureStage_ids]
  have hsub :
      ((ageStage as_of ((dedupById [] rows).map parseRow)).filter
          (ageFilterKeep minimum_age)).Sublist
        (ageStage as_of ((dedupById [] rows).map parseRow)) :=
    List.filter_sublist _
  have hmap := hsub.map (fun r : CleanRow => r.employee_id)
  rw [ageStage_ids, List.map_map] at hmap
  exact hmap

lemma enforceRow_age (r : CleanRow) : (enforceRow r).age = r.age := by
  unfold enforceRow; split_ifs <;> rfl

lemma enforceRow_hire (r : CleanRow) : (enforceRow r).hire_date = r.hire_date := by
  unfold enforceRow; split_ifs <;> rfl

lemma enforceRow_tenure (r : CleanRow) :
    (enforceRow r).tenure_years = r.tenure_years := by
  unfold enforceRow; split_ifs <;> rfl

lemma enforceRow_termdate (r : CleanRow) :
    (enforceRow r).termdate = if enforceMask r then none else r.termdate := by
  unfold enforceRow; split_ifs <;> rfl

lemma enforceMask_true_iff (r : CleanRow) :
    enforceMask r = true ↔
      ∃ t h, r.termdate = some t ∧ r.hire_date = some h ∧ t < h := by
  unfold enforceMask
  cases ht : r.termdate with
  | none => simp
  | some t =>
    cases hh : r.hire_date with
    | none => simp
    | some h =>
      simp only [decide_eq_true_eq]
      constructor
      · intro hlt; exact ⟨t, h, rfl, rfl, hlt⟩
      · rintro ⟨t', h', ht', hh', hlt⟩
        cases ht'; cases hh'; exact hlt

lemma mem_tenureStage_tenure {as_of : Int} {rows : List CleanRow}
    {r : CleanRow} (h : r ∈ tenureStage as_of rows) :
    r.tenure_years = calculate_tenure_years r.hire_date r.termdate as_of := by
  unfold tenureStage at h
  rw [List.mem_map] at h
  obtain ⟨r0, -, rfl⟩ := h
  rfl

lemma mem_ageStage_age {as_of : Int} {rows : List CleanRow}
    {r : CleanRow} (h : r ∈ ageStage as_of rows) :
    r.age = calculate_age r.birthdate as_of := by
  unfold ageStage at h
  rw [List.mem_map] at h
  obtain ⟨r0, -, rfl⟩ := h
  rfl

lemma ageFilterKeep_true_iff (minimum_age : Int) (r : CleanRow) :
    ageFilterKeep minimum_age r = true ↔
      r.age = none ∨ ∃ a, r.age = some a ∧ minimum_age ≤ a := by
  unfold ageFilterKeep
  cases h : r.age with
  | none => simp
  | some a =>
    simp only [decide_eq_true_eq]
    constructor
    · intro hle; exact Or.inr ⟨a, rfl, hle⟩
    · rintro (hnone | ⟨a', ha', hle⟩)
      · cases hnone
      · cases ha'; exact hle

/-- Every cleaned record passed the age filter (its age is untouched by the
tenure and chronology stages). -/
lemma mem_transform_rows_age {rows : List RawRow} {as_of : Int}
    {minimum_age : Int} {r : CleanRow}
    (h : r ∈ transform_rows rows as_of minimum_age) :
    ageFilterKeep minimum_age r = true := by
  unfold transform_rows _enforce_date_relationships at h
  rw [List.mem_map] at h
  obtain ⟨r1, h1, rfl⟩ := h
  unfold tenureStage at h1
  rw [List.mem_map] at h1
  obtain ⟨r2, h2, rfl⟩ := h1
  unfold filterByAge at h2
  rw [List.mem_filter] at h2
  have hkeep := h2.2
  unfold ageFilterKeep at hkeep ⊢
  rw [enforceRow_age]
  exact hkeep

lemma dfLookup_eq_none_of_not_mem (df : DFrame) (col : PyStr)
    (h : col ∉ dfKeys df) : dfLookup df col = none := by
  have hall : ∀ x ∈ df, ¬ ((fun p : PyStr × List DCell => p.1 == col) x = true) := by
    intro x hx hbeq
    simp only [beq_iff_eq] at hbeq
    exact h (hbeq ▸ List.mem_map_of_mem Prod.fst hx)
  unfold dfLookup
  rw [List.find?_eq_none.mpr hall]
  rfl

lemma standardise_dates_cons (df : DFrame) (c : PyStr) (rest : List PyStr) :
    _standardise_dates df (c :: rest) =
      _standardise_dates
        (if (dfKeys df).contains c then setColParsed df c else df) rest := by
  unfold _standardise_dates
  rw [List.foldl_cons]

lemma parse_dcell_date (d : Option Int) : parse_dcell (DCell.date d) = d := rfl

/-- Re-parsing an already parsed cell changes nothing. -/
lemma parse_map_idem (cells : List DCell) :
    ((cells.map (fun c => DCell.date (parse_dcell c))).map
        (fun c => DCell.date (parse_dcell c))) =
      cells.map (fun c => DCell.date (parse_dcell c)) := by
  rw [List.map_map]
  apply List.map_congr_left
  intro c _
  cases c <;> rfl

/-- A configured column present in the frame comes out fully parsed. -/
lemma dfLookup_standardise_dates_mem :
    ∀ (columns : List PyStr) (df : DFrame) (col : PyStr), col ∈ columns →
      dfLookup (_standardise_dates df columns) col =
        (dfLookup df col).map
          (fun cells => cells.map (fun c => DCell.date (parse_dcell c))) := by
  intro columns
  induction columns with
  | nil =>
    intro df col h
    exact absurd h (List.not_mem_nil col)
  | cons c rest ih =>
    intro df col hmem
    rw [standardise_dates_cons]
    by_cases hc : c = col
    · subst hc
      by_cases hk : (dfKeys df).contains c
      · rw [if_pos hk]
        by_cases hr : c ∈ rest
        · rw [ih _ _ hr, dfLookup_setColParsed_self]
          cases dfLookup df c with
          | none => rfl
          | some cells =>
            simp only [Option.map_some']
            exact congrArg some (parse_map_idem cells)
        · rw [dfLookup_standardise_dates_not_mem _ _ _ hr,
            dfLookup_setColParsed_self]
      · rw [if_neg hk]
        have hnone : dfLookup df c = none :=
          dfLookup_eq_none_of_not_mem df c (by simpa using hk)
        by_cases hr : c ∈ rest
        · rw [ih _ _ hr, hnone]
        · rw [dfLookup_standardise_dates_not_mem _ _ _ hr, hnone]
          rfl
    · have hr : col ∈ rest := by
        rcases List.mem_cons.mp hmem with h | h
        · exact absurd h.symm hc
        · exact h
      by_cases hk : (dfKeys df).contains c
      · rw [if_pos hk, ih _ _ hr, dfLookup_setColParsed_other _ _ _ hc]
      · rw [if_neg hk, ih _ _ hr]

-- ### The claims

/-- C1: For every record, the computed age equals
`as_of.year - birthdate.year`, minus 1 exactly when
`(as_of.month, as_of.day) < (birthdate.month, birthdate.day)` in tuple
order; an absent birthdate yields an absent age; in particular, birthdate
1990-01-15 (day 7319) with `as_of` 2024-01-01 (day 19723) gives age 33,
and with `as_of` 2024-02-01 (day 19754) gives age 34. -/
theorem C1_calculate_age_anniversary :
    (∀ as_of : Int, calculate_age none as_of = none) ∧
    (∀ b as_of : Int,
      calculate_age (some b) as_of =
        some ((civilFromDays as_of).1 - (civilFromDays b).1 -
          (if (civilFromDays as_of).2.1 < (civilFromDays b).2.1 ∨
              ((civilFromDays as_of).2.1 = (civilFromDays b).2.1 ∧
                (civilFromDays as_of).2.2 < (civilFromDays b).2.2)
            then 1 else 0))) ∧
    calculate_age (some 7319) 19723 = some 33 ∧
    calculate_age (some 7319) 19754 = some 34 := by
  refine ⟨fun _ => rfl, ?_, by decide, by decide⟩
  intro b as_of
  simp only [calculate_age]
  congr 1
  split_ifs with h1 h2 <;> omega

/-- C2: For every record, `tenure_years` equals the elapsed days from
`hire_date` to (`termdate` if present, else `as_of`), divided by 365.25 and
rounded to one decimal place; negative elapsed days and an absent
`hire_date` both give an absent result, so the computed tenure is never
negative. -/
theorem C2_calculate_tenure_years_spec :
    (∀ (term : Option Int) (as_of : Int),
      calculate_tenure_years none term as_of = none) ∧
    (∀ (h : Int) (term : Option Int) (as_of : Int),
      (term.getD as_of - h < 0 →
        calculate_tenure_years (some h) term as_of = none) ∧
      (0 ≤ term.getD as_of - h →
        calculate_tenure_years (some h) term as_of =
          some (round1 (((term.getD as_of - h : Int) : ℚ) / (1461 / 4))))) ∧
    (∀ (hire term : Option Int) (as_of : Int) (q : ℚ),
      calculate_tenure_years hire term as_of = some q → 0 ≤ q) := by
  refine ⟨fun _ _ => rfl, ?_, ?_⟩
  · intro h term as_of
    constructor
    · intro hneg
      simp only [calculate_tenure_years]
      rw [if_pos hneg]
    · intro hpos
      simp only [calculate_tenure_years]
      rw [if_neg (by omega)]
  · intro hire term as_of q hq
    cases hire with
    | none => cases hq
    | some h =>
      simp only [calculate_tenure_years] at hq
      by_cases hneg : term.getD as_of - h < 0
      · rw [if_pos hneg] at hq
        exact Option.noConfusion hq
      · rw [if_neg hneg] at hq
        injection hq with hq'
        subst hq'
        apply round1_nonneg
        apply div_nonneg
        · exact_mod_cast (by omega : (0 : Int) ≤ Option.getD term as_of - h)
        · norm_num

/-- C2 witness: hire 2016-04-01 (day 16892), no termination, reference
2024-01-01 (day 19723): the non-negative branch applies. -/
theorem C2_calculate_tenure_years_spec_witness :
    calculate_tenure_years (some 16892) none 19723 =
      some (round1 ((((none : Option Int).getD 19723 - 16892 : Int) : ℚ) /
        (1461 / 4))) :=
  (C2_calculate_tenure_years_spec.2.1 16892 none 19723).2 (by decide)

/-- C3: Chronology enforcement replaces the termination date with absent
exactly on the records whose termination date is present and strictly
earlier than their (present) hire date, drops no record and alters no other
field, so afterwards no record has a present termination date earlier than
its hire date; the Scenario 5 record (termdate 2019-05-02 = day 18018, hire
2020-01-01 = day 18262) comes out with an absent termdate and an unchanged
hire date. -/
theorem C3_enforce_date_relationships_spec :
    (∀ rows : List CleanRow,
      (_enforce_date_relationships rows).length = rows.length) ∧
    (∀ r : CleanRow,
      (enforceRow r).employee_id = r.employee_id ∧
      (enforceRow r).birthdate = r.birthdate ∧
      (enforceRow r).hire_date = r.hire_date ∧
      (enforceRow r).gender = r.gender ∧
      (enforceRow r).department = r.department ∧
      (enforceRow r).age = r.age ∧
      (enforceRow r).tenure_years = r.tenure_years ∧
      (enforceRow r).termdate = (if enforceMask r then none else r.termdate) ∧
      (enforceMask r = true ↔
        ∃ t h, r.termdate = some t ∧ r.hire_date = some h ∧ t < h)) ∧
    (∀ (rows : List CleanRow) (r : CleanRow),
      r ∈ _enforce_date_relationships rows →
        ∀ t h, r.termdate = some t → r.hire_date = some h → ¬ t < h) ∧
    (enforceRow chronoClean = { chronoClean with termdate := none } ∧
      (enforceRow chronoClean).hire_date = some 18262) := by
  refine ⟨?_, ?_, ?_, rfl, rfl⟩
  · intro rows
    unfold _enforce_date_relationships
    exact List.length_map rows enforceRow
  · intro r
    refine ⟨?_, ?_, ?_, ?_, ?_, ?_, ?_, ?_, enforceMask_true_iff r⟩ <;>
      (unfold enforceRow; split_ifs <;> rfl)
  · intro rows r hr t h ht hh hlt
    unfold _enforce_date_relationships at hr
    rw [List.mem_map] at hr
    obtain ⟨r0, -, rfl⟩ := hr
    rw [enforceRow_termdate] at ht
    rw [enforceRow_hire] at hh
    by_cases hmask : enforceMask r0 = true
    · rw [if_pos hmask] at ht
      exact Option.noConfusion ht
    · rw [if_neg hmask] at ht
      exact hmask ((enforceMask_true_iff r0).mpr ⟨t, h, ht, hh, hlt⟩)

/-- C3 witness: instantiate the per-record clause at the Scenario 5 record. -/
theorem C3_enforce_date_relationships_spec_witness :
    (enforceRow chronoClean).termdate =
      (if enforceMask chronoClean then none else chronoClean.termdate) :=
  (C3_enforce_date_relationships_spec.2.1 chronoClean).2.2.2.2.2.2.2.1

/-- C4: If any required column is absent after header canonicalization the
pipeline raises the schema error listing every missing required column and
produces no cleaned rows; a header without `department` yields an error
naming `department`. -/
theorem C4_schema_error_lists_all_missing :
    (∀ columns required : List PyStr,
      (validate_required_columns columns required = .ok () ↔
        ∀ c ∈ required, c ∈ columns)) ∧
    (∀ (columns required : List PyStr) (e : SchemaError),
      validate_required_columns columns required = .error e →
        ∀ c ∈ required, c ∉ columns → c ∈ e.missing) ∧
    (∀ (df : RawFrame) (config : DatasetConfig) (as_of : Int)
        (minimum_age : Int) (e : SchemaError),
      validate_required_columns (canonicalise_column_names df.columns)
          config.required_columns = .error e →
        clean_dataset df config as_of minimum_age = .error e) ∧
    (clean_dataset noDeptFrame DEFAULT_CONFIG asOfDay 18 =
        .error { missing := [pyStr "department"] } ∧
      pyStr "department" ∈
        ({ missing := [pyStr "department"] } : SchemaError).missing) := by
  refine ⟨fun columns required => validate_required_columns_ok_iff, ?_, ?_,
    rfl, by simp⟩
  · intro columns required e hv c hc hnc
    simp only [validate_required_columns] at hv
    by_cases hemp :
        (List.filter (fun c => !columns.contains c) required).isEmpty = true
    · rw [if_pos hemp] at hv
      exact Except.noConfusion hv
    · rw [if_neg hemp] at hv
      simp only [Except.error.injEq] at hv
      subst hv
      have hmemf :
          c ∈ sortStrs (List.filter (fun c => !columns.contains c) required) := by
        rw [mem_sortStrs]
        exact List.mem_filter.mpr ⟨hc, by simpa using hnc⟩
      exact hmemf
  · intro df config as_of min e hv
    simp [clean_dataset, hv]

/-- C4 witness: the error clause at the `department`-less header. -/
theorem C4_schema_error_lists_all_missing_witness :
    pyStr "department" ∈
      (SchemaError.mk [pyStr "department"]).missing :=
  C4_schema_error_lists_all_missing.2.1
    (canonicalise_column_names noDeptFrame.columns)
    DEFAULT_CONFIG.required_columns
    ⟨[pyStr "department"]⟩ rfl (pyStr "department") (by decide)
    (by decide)

/-- C5: Deduplication keeps, for each identifier, exactly the first record
in input order; the cleaned output's identifiers are unique; two input
records with identifier `"002"` leave exactly one cleaned record with that
identifier. -/
theorem C5_dedup_first_wins_unique_ids :
    (∀ (rows : List RawRow) (r : RawRow),
      r ∈ dedupById [] rows ↔
        rows.find? (fun x => x.id == r.id) = some r) ∧
    (∀ (df : RawFrame) (config : DatasetConfig) (as_of : Int)
        (minimum_age : Int) (rows : List CleanRow),
      clean_dataset df config as_of minimum_age = .ok rows →
        (rows.map (fun r => r.employee_id)).Nodup) ∧
    (clean_dataset sampleFrame DEFAULT_CONFIG asOfDay 18 =
        .ok (transform_rows sampleFrame.rows asOfDay 18) ∧
      ((transform_rows sampleFrame.rows asOfDay 18).filter
          (fun r => r.employee_id == pyStr "002")).length = 1) := by
  refine ⟨?_, ?_, rfl, rfl⟩
  · intro rows r
    rw [mem_dedupById]
    simp
  · intro df config as_of min rows hok
    unfold clean_dataset at hok
    split at hok
    · exact Except.noConfusion hok
    · injection hok with hok'
      subst hok'
      exact ((dedupById_ids_nodup df.rows []).1).sublist
        (transform_rows_ids_sublist df.rows as_of min)

/-- C5 witness: the uniqueness clause at the duplicated test fixture. -/
theorem C5_dedup_first_wins_unique_ids_witness :
    ((transform_rows sampleFrame.rows asOfDay 18).map
        (fun r => r.employee_id)).Nodup :=
  C5_dedup_first_wins_unique_ids.2.1 sampleFrame DEFAULT_CONFIG asOfDay 18
    (transform_rows sampleFrame.rows asOfDay 18) rfl

/-- C6: The cleaning orchestrator drops exactly the records whose computed
age is present and strictly below the configured minimum (default 18); a
record with an absent age is kept. -/
theorem C6_age_filter_keeps_absent :
    (∀ (minimum_age : Int) (rows : List CleanRow) (r : CleanRow),
      r ∈ filterByAge minimum_age rows ↔
        r ∈ rows ∧ (r.age = none ∨ ∃ a, r.age = some a ∧ minimum_age ≤ a)) ∧
    (∀ (df : RawFrame) (config : DatasetConfig) (as_of : Int)
        (minimum_age : Int) (rows : List CleanRow),
      clean_dataset df config as_of minimum_age = .ok rows →
        ∀ r ∈ rows, r.age = none ∨ ∃ a, r.age = some a ∧ minimum_age ≤ a) ∧
    (∀ (df : RawFrame) (config : DatasetConfig) (as_of : Int),
      clean_dataset df config as_of = clean_dataset df config as_of 18) := by
  refine ⟨?_, ?_, fun _ _ _ => rfl⟩
  · intro min rows r
    unfold filterByAge
    rw [List.mem_filter, ageFilterKeep_true_iff]
  · intro df config as_of min rows hok r hr
    unfold clean_dataset at hok
    split at hok
    · exact Except.noConfusion hok
    · injection hok with hok'
      subst hok'
      exact (ageFilterKeep_true_iff min r).mp (mem_transform_rows_age hr)

/-- C6 witness: the output invariant at the test fixture. -/
theorem C6_age_filter_keeps_absent_witness :
    chronoClean.termdate = some 18018 ∧
    ((transform_rows chronoFrame.rows asOfDay 18).map (fun r => r.age) =
      [some 33]) ∧
    (∀ r ∈ transform_rows chronoFrame.rows asOfDay 18,
      r.age = none ∨ ∃ a, r.age = some a ∧ (18 : Int) ≤ a) :=
  ⟨rfl, rfl,
    C6_age_filter_keeps_absent.2.1 chronoFrame DEFAULT_CONFIG asOfDay 18
      (transform_rows chronoFrame.rows asOfDay 18) rfl⟩

/-- C7: Date normalization maps an unparseable value to absent rather than
raising, converts a timezone-bearing value to the calendar date observed at
UTC with the offset discarded (the result type carries no offset), leaves
the header set unchanged, silently skips a configured column absent from
the frame, and leaves every present configured column holding only parsed
date cells. -/
theorem C7_standardise_dates_total_and_utc :
    (parse_cell .invalid = none) ∧
    (∀ m : Int, parse_cell (.naive m) = some (Int.fdiv m 1440)) ∧
    (∀ m off : Int, parse_cell (.aware m off) = some (Int.fdiv (m - off) 1440)) ∧
    (∀ (df : DFrame) (columns : List PyStr),
      dfKeys (_standardise_dates df columns) = dfKeys df) ∧
    (∀ (df : DFrame) (c : PyStr) (columns : List PyStr),
      c ∉ dfKeys df →
        _standardise_dates df (c :: columns) = _standardise_dates df columns) ∧
    (∀ (columns : List PyStr) (df : DFrame) (col : PyStr), col ∈ columns →
      dfLookup (_standardise_dates df columns) col =
        (dfLookup df col).map
          (fun cells => cells.map (fun c => DCell.date (parse_dcell c)))) := by
  refine ⟨rfl, fun _ => rfl, fun _ _ => rfl, dfKeys_standardise_dates, ?_,
    dfLookup_standardise_dates_mem⟩
  intro df c columns hc
  rw [standardise_dates_cons, if_neg (by simpa using hc)]

/-- C7 witness: a frame without a `termdate` column skips that configured
column, and its present `birthdate` column comes out parsed. -/
theorem C7_standardise_dates_total_and_utc_witness :
    (_standardise_dates [(pyStr "birthdate", [DCell.raw .invalid])]
        (pyStr "termdate" :: [pyStr "birthdate"]) =
      _standardise_dates [(pyStr "birthdate", [DCell.raw .invalid])]
        [pyStr "birthdate"]) ∧
    dfLookup
        (_standardise_dates [(pyStr "birthdate", [DCell.raw .invalid])]
          [pyStr "birthdate"]) (pyStr "birthdate") =
      (dfLookup [(pyStr "birthdate", [DCell.raw .invalid])]
          (pyStr "birthdate")).map
        (fun cells => cells.map (fun c => DCell.date (parse_dcell c))) :=
  ⟨C7_standardise_dates_total_and_utc.2.2.2.2.1
      [(pyStr "birthdate", [DCell.raw .invalid])] (pyStr "termdate")
      [pyStr "birthdate"] (by decide),
    C7_standardise_dates_total_and_utc.2.2.2.2.2
      [pyStr "birthdate"] [(pyStr "birthdate", [DCell.raw .invalid])]
      (pyStr "birthdate") (by decide)⟩

/-- C8: Header canonicalization is idempotent, deterministic and
order-preserving: one canonical key per input header, positionally aligned
with the input. -/
theorem C8_canonicalisation_idempotent_aligned :
    (∀ columns : List PyStr,
      canonicalise_column_names (canonicalise_column_names columns) =
        canonicalise_column_names columns) ∧
    (∀ columns : List PyStr,
      (canonicalise_column_names columns).length = columns.length) ∧
    (∀ (columns : List PyStr) (i : Nat) (hi : i < columns.length)
        (hi2 : i < (canonicalise_column_names columns).length),
      (canonicalise_column_names columns).get ⟨i, hi2⟩ =
        canonicaliseOne (columns.get ⟨i, hi⟩)) := by
  refine ⟨?_, ?_, ?_⟩
  · intro columns
    unfold canonicalise_column_names
    rw [List.map_map]
    exact List.map_congr_left (fun s _ => canonicaliseOne_idem s)
  · intro columns
    exact List.length_map columns canonicaliseOne
  · intro columns i hi hi2
    simp [canonicalise_column_names, List.get_eq_getElem, List.getElem_map]

/-- C8 witness: the positional clause at a one-header list. -/
theorem C8_canonicalisation_idempotent_aligned_witness :
    (canonicalise_column_names [pyStr "First Name"]).get ⟨0, by decide⟩ =
      canonicaliseOne (([pyStr "First Name"] : List PyStr).get ⟨0, by decide⟩) :=
  C8_canonicalisation_idempotent_aligned.2.2 [pyStr "First Name"] 0 (by decide)
    (by decide)

/-- C9: `clean_dataset` never mutates the caller's input table or the
passed-in configuration: threading both through the call (the code copies
the frame on line 43 and only ever writes the copy; the configuration is a
frozen dataclass it only reads), the caller's frame and configuration come
back exactly as they went in, and the result is the freshly built table of
the pure function. -/
theorem C9_clean_dataset_no_mutation :
    ∀ (df : RawFrame) (config : DatasetConfig) (as_of : Int)
      (minimum_age : Int),
      (clean_dataset_mut df config as_of minimum_age).1 = df ∧
      (clean_dataset_mut df config as_of minimum_age).2.1 = config ∧
      (clean_dataset_mut df config as_of minimum_age).2.2 =
        clean_dataset df config as_of minimum_age := by
  intro df config as_of min
  simp only [clean_dataset_mut, clean_dataset]
  cases validate_required_columns (canonicalise_column_names df.columns)
      config.required_columns <;>
    exact ⟨rfl, rfl, rfl⟩

/-- C10: For every record that survives cleaning whose parsed termination
date was present and strictly earlier than its parsed hire date, the
cleaned output has `tenure_years` absent as well as `termdate` absent:
tenure is computed before chronology repair from the original termination
date (the negative elapsed days make it absent), and the repair only nulls
the termination date without recomputing tenure. -/
theorem C10_tenure_frozen_before_repair :
    ∀ (df : RawFrame) (config : DatasetConfig) (as_of : Int)
      (minimum_age : Int) (rows : List CleanRow),
      clean_dataset df config as_of minimum_age = .ok rows →
      ∀ r ∈ tenureStage as_of (filterByAge minimum_age
          (ageStage as_of ((dedupById [] df.rows).map parseRow))),
        ∀ t h, r.termdate = some t → r.hire_date = some h → t < h →
          r.tenure_years = none ∧
          enforceRow r = { r with termdate := none } ∧
          { r with termdate := none } ∈ rows := by
  intro df config as_of min rows hok r hr t h ht hh hlt
  unfold clean_dataset at hok
  split at hok
  · exact Except.noConfusion hok
  · injection hok with hok'
    subst hok'
    have hmask : enforceMask r = true :=
      (enforceMask_true_iff r).mpr ⟨t, h, ht, hh, hlt⟩
    have hrow : enforceRow r = { r with termdate := none } := by
      unfold enforceRow
      rw [if_pos hmask]
    have htn : r.tenure_years = none := by
      rw [mem_tenureStage_tenure hr, ht, hh]
      simp only [calculate_tenure_years, Option.getD_some]
      rw [if_pos (by omega)]
    refine ⟨htn, hrow, ?_⟩
    unfold transform_rows _enforce_date_relationships
    have hmem := List.mem_map_of_mem enforceRow hr
    rwa [hrow] at hmem

/-- C10 witness: the Scenario 5 record survives cleaning with both its
termination date and its tenure absent. -/
theorem C10_tenure_frozen_before_repair_witness :
    chronoClean.tenure_years = none ∧
    enforceRow chronoClean = { chronoClean with termdate := none } ∧
    { chronoClean with termdate := none } ∈
      transform_rows chronoFrame.rows asOfDay 18 :=
  C10_tenure_frozen_before_repair chronoFrame DEFAULT_CONFIG asOfDay 18
    (transform_rows chronoFrame.rows asOfDay 18) rfl chronoClean
    (by
      rw [show tenureStage asOfDay (filterByAge 18 (ageStage asOfDay
          ((dedupById [] chronoFrame.rows).map parseRow))) = [chronoClean]
        from rfl]
      exact List.mem_singleton.mpr rfl)
    18018 18262 rfl rfl (by decide)
